import Mathlib

/-!
Verification of the AI-Ethica fairness/bias metrics engine.

Shallow embedding of the statistical core of the repository:

* `src/ai_ethica/fairness/metrics.py` (class `FairnessMetrics`):
  `demographic_parity`, `equalized_odds`, `equal_opportunity`, `calibration`.
* `src/ai_ethica/bias/detector.py` (class `BiasDetector`):
  `analyze`, `_analyze_attribute`, `_calculate_representation_bias`,
  `_calculate_label_bias`, `_generate_recommendations`.

Modelling conventions:

* Python floats are modelled as exact rationals (`ℚ`).  The float `inf`
  produced by the `else float(-inf-)` branches is modelled as `none` in an
  `Option ℚ` field; a finite value is `some q`.  The NaN produced by pandas
  `Series.max()` on an empty series is likewise modelled as `none` in the
  `max_proportion` / `min_proportion` fields.
* Python exceptions are modelled by the inductive type `Err`; each
  constructor corresponds to one raise site or library failure mode that the
  embedded code can actually reach.
* `numpy` boolean masking `xs[mask]` requires `len(mask) == len(xs)` and
  raises `IndexError` otherwise; this is `maskSelect`.
* `np.unique` returns the sorted distinct values; this is `uniqueSorted`.
* `sklearn.metrics.confusion_matrix(t, p).ravel()` infers the label set from
  the values present in `t` and `p`.  When only one distinct value occurs the
  matrix is 1x1 and the four-way unpacking `tn, fp, fn, tp = ...` raises
  `ValueError`; with the two values 0 and 1 present it yields the four counts
  in the order TN, FP, FN, TP.  This is `confusionRavel` (labels restricted
  to the binary case, `Bool`, which is the only case the spec admits for the
  confusion-based metrics).
* Group keys: the source stores per-group results under `str(group)`.  `str`
  is injective on same-typed group values, so the embedding keys results by
  the group value itself, generic in a linearly ordered type `α`.
-/

/-- Python exceptions reachable in the embedded code.  The two
`ValueError` raise sites of `BiasDetector.analyze` are distinguished by
constructor; `valueErrorEmptyMax` is the `ValueError` thrown by builtin
`max()`/`min()` on an empty sequence; `valueErrorUnpack` is the `ValueError`
thrown when unpacking a 1x1 confusion matrix into four variables;
`indexErrorBoolMask` is the `IndexError` thrown by numpy when a boolean mask
has the wrong length. -/
inductive Err where
  | valueErrorEmptyAttrs
  | valueErrorAttrNotFound (attr : String)
  | valueErrorEmptyMax
  | valueErrorUnpack
  | indexErrorBoolMask
deriving DecidableEq

/-- Classification of the embedded exceptions by Python exception class:
every constructor models a `ValueError` except the numpy boolean-mask
`IndexError`.  The abstract `InvalidInput` error kind of the specification
corresponds to Python `ValueError`. -/
def Err.isValueError : Err → Bool
  | .indexErrorBoolMask => false
  | _ => true

/-- Embedding of numpy boolean-mask selection `xs[mask]` on a 1-d array:
the mask must have exactly the length of the array, otherwise numpy raises
`IndexError`. -/
def maskSelect {β : Type} (xs : List β) (mask : List Bool) : Except Err (List β) :=
  if xs.length = mask.length then
    .ok ((xs.zip mask).filterMap (fun p => if p.2 then some p.1 else none))
  else .error .indexErrorBoolMask

/-- Embedding of `np.ndarray.mean()` for a nonempty 1-d array (every call
site applies it to a nonempty group slice). -/
def listMean (xs : List ℚ) : ℚ := xs.sum / xs.length

/-- Embedding of `np.unique`: the distinct values of the input, sorted. -/
def uniqueSorted {α : Type} [LinearOrder α] (xs : List α) : List α :=
  (xs.dedup).insertionSort (· ≤ ·)

/-- Embedding of builtin `max()` on a list: raises `ValueError` on the empty
sequence. -/
def maxQ : List ℚ → Except Err ℚ
  | [] => .error .valueErrorEmptyMax
  | x :: xs => .ok (xs.foldl max x)

/-- Embedding of builtin `min()` on a list: raises `ValueError` on the empty
sequence. -/
def minQ : List ℚ → Except Err ℚ
  | [] => .error .valueErrorEmptyMax
  | x :: xs => .ok (xs.foldl min x)

/-- Embedding of `sklearn.metrics.confusion_matrix(t, p).ravel()` followed by
the four-way unpacking `tn, fp, fn, tp = ...` for binary labels.  The label
set is inferred from the values occurring in `t` and `p`; when fewer than two
distinct values occur the matrix is not 2x2 and the unpacking raises
`ValueError`. -/
def confusionRavel (y_true y_pred : List Bool) : Except Err (ℕ × ℕ × ℕ × ℕ) :=
  if (y_true ++ y_pred).all (fun b => b) ∨ (y_true ++ y_pred).all (fun b => !b) then
    .error .valueErrorUnpack
  else
    let pairs := y_true.zip y_pred
    .ok (pairs.countP (fun q => !q.1 && !q.2),
         pairs.countP (fun q => !q.1 && q.2),
         pairs.countP (fun q => q.1 && !q.2),
         pairs.countP (fun q => q.1 && q.2))

/-- Result record of `FairnessMetrics.demographic_parity`
(metrics.py lines 120-125).  `parity_ratio = none` models `float(inf)`. -/
structure DPResult (α : Type) where
  positive_rates : List (α × ℚ)
  parity_ratio : Option ℚ
  violation : ℚ
  is_fair : Bool
deriving DecidableEq

/-- Per-group loop of `demographic_parity` (metrics.py lines 112-114): for
each group, mask the predictions by membership and take the mean. -/
def groupRates {α : Type} [DecidableEq α] (y_pred : List ℚ) (attr : List α) :
    List α → Except Err (List (α × ℚ))
  | [] => .ok []
  | g :: gs =>
    match maskSelect y_pred (attr.map (fun a => decide (a = g))) with
    | .error e => .error e
    | .ok sel =>
      match groupRates y_pred attr gs with
      | .error e => .error e
      | .ok rest => .ok ((g, listMean sel) :: rest)

/-- Embedding of `FairnessMetrics.demographic_parity` (metrics.py lines
94-125).  The 0.05 threshold of the source is the rational 1/20. -/
def demographic_parity {α : Type} [LinearOrder α] (y_pred : List ℚ) (protected_attr : List α) :
    Except Err (DPResult α) :=
  match groupRates y_pred protected_attr (uniqueSorted protected_attr) with
  | .error e => .error e
  | .ok positive_rates =>
    let rates := positive_rates.map (·.2)
    match maxQ rates with
    | .error e => .error e
    | .ok max_rate =>
      match minQ rates with
      | .error e => .error e
      | .ok min_rate =>
        .ok { positive_rates := positive_rates,
              parity_ratio := if 0 < min_rate then some (max_rate / min_rate) else none,
              violation := max_rate - min_rate,
              is_fair := decide (max_rate - min_rate < 1/20) }

/-- Per-group record of `equalized_odds` (metrics.py lines 156-163). -/
structure GroupOdds where
  tpr : ℚ
  fpr : ℚ
  tn : ℕ
  fp : ℕ
  fn : ℕ
  tp : ℕ
deriving DecidableEq

/-- Result record of `FairnessMetrics.equalized_odds`
(metrics.py lines 171-178). -/
structure EOResult (α : Type) where
  group_metrics : List (α × GroupOdds)
  tpr_violation : ℚ
  fpr_violation : ℚ
  max_tpr_violation : ℚ
  max_fpr_violation : ℚ
  is_fair : Bool
deriving DecidableEq

/-- Per-group loop of `equalized_odds` (metrics.py lines 146-163): mask the
true labels, mask the predictions, take the confusion counts, and derive TPR
and FPR with the zero-denominator convention `rate = 0`. -/
def groupOddsList {α : Type} [DecidableEq α] (y_true y_pred : List Bool) (attr : List α) :
    List α → Except Err (List (α × GroupOdds))
  | [] => .ok []
  | g :: gs =>
    match maskSelect y_true (attr.map (fun a => decide (a = g))) with
    | .error e => .error e
    | .ok t =>
      match maskSelect y_pred (attr.map (fun a => decide (a = g))) with
      | .error e => .error e
      | .ok p =>
        match confusionRavel t p with
        | .error e => .error e
        | .ok (tn, fp, fn, tp) =>
          match groupOddsList y_true y_pred attr gs with
          | .error e => .error e
          | .ok rest =>
            .ok ((g, { tpr := if 0 < tp + fn then (tp : ℚ) / ((tp : ℚ) + (fn : ℚ)) else 0,
                       fpr := if 0 < fp + tn then (fp : ℚ) / ((fp : ℚ) + (tn : ℚ)) else 0,
                       tn := tn, fp := fp, fn := fn, tp := tp }) :: rest)

/-- Embedding of `FairnessMetrics.equalized_odds` (metrics.py lines
127-178). -/
def equalized_odds {α : Type} [LinearOrder α] (y_true y_pred : List Bool) (protected_attr : List α) :
    Except Err (EOResult α) :=
  match groupOddsList y_true y_pred protected_attr (uniqueSorted protected_attr) with
  | .error e => .error e
  | .ok group_metrics =>
    let tprs := group_metrics.map (·.2.tpr)
    let fprs := group_metrics.map (·.2.fpr)
    match maxQ tprs with
    | .error e => .error e
    | .ok tmax =>
      match minQ tprs with
      | .error e => .error e
      | .ok tmin =>
        match maxQ fprs with
        | .error e => .error e
        | .ok fmax =>
          match minQ fprs with
          | .error e => .error e
          | .ok fmin =>
            .ok { group_metrics := group_metrics,
                  tpr_violation := tmax - tmin,
                  fpr_violation := fmax - fmin,
                  max_tpr_violation := tmax - tmin,
                  max_fpr_violation := fmax - fmin,
                  is_fair := decide (tmax - tmin < 1/20) && decide (fmax - fmin < 1/20) }

/-- Result record of `FairnessMetrics.equal_opportunity`
(metrics.py lines 212-216). -/
structure EqOppResult (α : Type) where
  tprs : List (α × ℚ)
  violation : ℚ
  is_fair : Bool
deriving DecidableEq

/-- Per-group loop of `equal_opportunity` (metrics.py lines 199-206). -/
def groupTprs {α : Type} [DecidableEq α] (y_true y_pred : List Bool) (attr : List α) :
    List α → Except Err (List (α × ℚ))
  | [] => .ok []
  | g :: gs =>
    match maskSelect y_true (attr.map (fun a => decide (a = g))) with
    | .error e => .error e
    | .ok t =>
      match maskSelect y_pred (attr.map (fun a => decide (a = g))) with
      | .error e => .error e
      | .ok p =>
        match confusionRavel t p with
        | .error e => .error e
        | .ok (_, _, fn, tp) =>
          match groupTprs y_true y_pred attr gs with
          | .error e => .error e
          | .ok rest =>
            .ok ((g, if 0 < tp + fn then (tp : ℚ) / ((tp : ℚ) + (fn : ℚ)) else 0) :: rest)

/-- Embedding of `FairnessMetrics.equal_opportunity` (metrics.py lines
180-216). -/
def equal_opportunity {α : Type} [LinearOrder α] (y_true y_pred : List Bool) (protected_attr : List α) :
    Except Err (EqOppResult α) :=
  match groupTprs y_true y_pred protected_attr (uniqueSorted protected_attr) with
  | .error e => .error e
  | .ok tprs =>
    let rates := tprs.map (·.2)
    match maxQ rates with
    | .error e => .error e
    | .ok max_tpr =>
      match minQ rates with
      | .error e => .error e
      | .ok min_tpr =>
        .ok { tprs := tprs,
              violation := max_tpr - min_tpr,
              is_fair := decide (max_tpr - min_tpr < 1/20) }

/-- Result record of `FairnessMetrics.calibration`
(metrics.py lines 260-264). -/
structure CalibrationResult (α : Type) where
  group_calibration : List (α × ℚ × ℚ × ℚ)
  max_calibration_error : ℚ
  is_calibrated : Bool
deriving DecidableEq

/-- Per-group loop of `calibration` (metrics.py lines 242-255): expected
positive rate, actual positive rate, and their absolute difference. -/
def groupCalib {α : Type} [DecidableEq α] (y_true y_pred_proba : List ℚ) (attr : List α) :
    List α → Except Err (List (α × ℚ × ℚ × ℚ))
  | [] => .ok []
  | g :: gs =>
    match maskSelect y_true (attr.map (fun a => decide (a = g))) with
    | .error e => .error e
    | .ok t =>
      match maskSelect y_pred_proba (attr.map (fun a => decide (a = g))) with
      | .error e => .error e
      | .ok pr =>
        match groupCalib y_true y_pred_proba attr gs with
        | .error e => .error e
        | .ok rest =>
          .ok ((g, listMean pr, listMean t, |listMean pr - listMean t|) :: rest)

/-- Embedding of `FairnessMetrics.calibration` (metrics.py lines 218-264). -/
def calibration {α : Type} [LinearOrder α] (y_true y_pred_proba : List ℚ) (protected_attr : List α) :
    Except Err (CalibrationResult α) :=
  match groupCalib y_true y_pred_proba protected_attr (uniqueSorted protected_attr) with
  | .error e => .error e
  | .ok group_calibration =>
    match maxQ (group_calibration.map (·.2.2.2)) with
    | .error e => .error e
    | .ok max_error =>
      .ok { group_calibration := group_calibration,
            max_calibration_error := max_error,
            is_calibrated := decide (max_error < 1/20) }

/-- Single quote character, used by the recommendation message templates
(the source builds the messages with f-strings quoting the attribute
name). -/
def quoteChar : String := String.singleton (Char.ofNat 39)

/-- Shallow model of a pandas `DataFrame`: a row count and named columns of
rational cell values.  In a well-formed frame every column has length
`nrows`; the claims are stated over frames produced this way. -/
structure DataFrame where
  nrows : ℕ
  cols : List (String × List ℚ)
deriving DecidableEq

/-- Column lookup, `data[c]` when present. -/
def DataFrame.col? (d : DataFrame) (c : String) : Option (List ℚ) :=
  (d.cols.find? (fun p => p.1 == c)).map (·.2)

/-- Membership test `c in data.columns`. -/
def DataFrame.hasCol (d : DataFrame) (c : String) : Bool :=
  (d.col? c).isSome

/-- Embedding of `pd.Series.value_counts()` for a column: each distinct
value with its number of occurrences.  The source only consumes the counts
through order-insensitive operations (max, min, dict conversion), so the
frequency-descending order of pandas is modelled by first-occurrence
order. -/
def valueCounts (xs : List ℚ) : List (ℚ × ℕ) :=
  xs.dedup.map (fun g => (g, xs.count g))

/-- Embedding of `Series.max()`: `none` models the NaN returned on an empty
series. -/
def maxO : List ℚ → Option ℚ
  | [] => none
  | x :: xs => some (xs.foldl max x)

/-- Embedding of `Series.min()`: `none` models the NaN returned on an empty
series. -/
def minO : List ℚ → Option ℚ
  | [] => none
  | x :: xs => some (xs.foldl min x)

/-- Result record of `BiasDetector._calculate_representation_bias`
(detector.py lines 113-118).  `disparity_ratio = none` models `float(inf)`;
`max_proportion = none` and `min_proportion = none` model the NaN of an
empty column (in that case every Python comparison with the NaN is false, so
`disparity_ratio` is `inf` and `is_balanced` is false). -/
structure RepresentationBias where
  max_proportion : Option ℚ
  min_proportion : Option ℚ
  disparity_ratio : Option ℚ
  is_balanced : Bool
deriving DecidableEq

/-- Embedding of `BiasDetector._calculate_representation_bias`
(detector.py lines 103-118). -/
def _calculate_representation_bias (value_counts : List (ℚ × ℕ)) (total : ℕ) :
    RepresentationBias :=
  let proportions : List ℚ := value_counts.map (fun p => (p.2 : ℚ) / (total : ℚ))
  match maxO proportions, minO proportions with
  | some max_prop, some min_prop =>
    { max_proportion := some max_prop,
      min_proportion := some min_prop,
      disparity_ratio := if 0 < min_prop then some (max_prop / min_prop) else none,
      is_balanced := if 0 < min_prop then decide (max_prop / min_prop < 3/2) else false }
  | _, _ =>
    { max_proportion := none, min_proportion := none,
      disparity_ratio := none, is_balanced := false }

/-- Representation analysis of one column as `_analyze_attribute` performs
it on a well-formed frame: value counts of the column against the row
count, which equals the column length. -/
def representationBiasOfColumn (xs : List ℚ) : RepresentationBias :=
  _calculate_representation_bias (valueCounts xs) xs.length

/-- Per-group entry of the `label_bias` dict (detector.py lines 133-137),
in the numeric-dtype branch: `positive_rate` is the mean of the indicator
`target == 1` and `mean_target` is Python `None`. -/
structure LabelGroupStats where
  group_size : ℕ
  positive_rate : Option ℚ
  mean_target : Option ℚ
deriving DecidableEq

/-- The `disparity` entry of the `label_bias` dict (detector.py lines
146-150).  `disparity_ratio = none` models `float(inf)`. -/
structure LabelDisparity where
  max_rate : ℚ
  min_rate : ℚ
  disparity_ratio : Option ℚ
deriving DecidableEq

/-- Result of `BiasDetector._calculate_label_bias`: the per-group entries
and, when at least one usable rate exists, the `disparity` entry. -/
structure LabelBias where
  groups : List (ℚ × LabelGroupStats)
  disparity : Option LabelDisparity
deriving DecidableEq

/-- Embedding of the rate extraction
`v.get(-positive_rate-) or v.get(-mean_target-, 0)` (detector.py line 141)
followed by the `is not None` filter of line 142.  Python `or` returns the
second operand whenever the first is falsy, and the float `0.0` is falsy, so
a group whose positive rate is exactly 0 contributes its `mean_target`
(which in the numeric-dtype branch is `None` and is then filtered out). -/
def pyOrRate (positive_rate mean_target : Option ℚ) : Option ℚ :=
  match positive_rate with
  | some q => if q = 0 then mean_target else some q
  | none => mean_target

/-- Embedding of `BiasDetector._calculate_label_bias` (detector.py lines
120-152) applied to an aligned attribute column and a numeric target
column (the `dtype in [int, float]` branch, the one a binary 0/1 target
takes).  The enumeration order of the distinct group values may differ from
pandas `unique()`, which is immaterial to the `disparity` entry since max
and min are order-insensitive. -/
def _calculate_label_bias (attrCol targetCol : List ℚ) : LabelBias :=
  let stats := attrCol.dedup.filterMap (fun g =>
    let pairs := (attrCol.zip targetCol).filter (fun p => p.1 == g)
    if 0 < pairs.length then
      some (g, ({ group_size := pairs.length,
                  positive_rate :=
                    some (listMean (pairs.map (fun p => if p.2 == 1 then (1 : ℚ) else 0))),
                  mean_target := none } : LabelGroupStats))
    else none)
  let rates := stats.filterMap (fun s => pyOrRate s.2.positive_rate s.2.mean_target)
  match maxO rates, minO rates with
  | some max_rate, some min_rate =>
    { groups := stats,
      disparity := some { max_rate := max_rate, min_rate := min_rate,
                          disparity_ratio :=
                            if 0 < min_rate then some (max_rate / min_rate) else none } }
  | _, _ => { groups := stats, disparity := none }

/-- Result record of `BiasDetector._analyze_attribute` (detector.py lines
89-101).  `label_bias` is present exactly when a truthy target column name
was supplied and is a column of the frame. -/
structure AttrBias where
  attribute_name : String
  group_distribution : List (ℚ × ℚ)
  group_counts : List (ℚ × ℕ)
  representation_bias : RepresentationBias
  label_bias : Option LabelBias
deriving DecidableEq

/-- Embedding of `BiasDetector._analyze_attribute` (detector.py lines
79-101).  Call sites guarantee that `attribute` is a column. -/
def _analyze_attribute (data : DataFrame) (attribute_name : String)
    (target_column : Option String) : AttrBias :=
  let col := (data.col? attribute_name).getD []
  let value_counts := valueCounts col
  let total := data.nrows
  { attribute_name := attribute_name,
    group_distribution := value_counts.map (fun p => (p.1, (p.2 : ℚ) / (total : ℚ))),
    group_counts := value_counts,
    representation_bias := _calculate_representation_bias value_counts total,
    label_bias :=
      match target_column with
      | some t => if (t != "") && data.hasCol t then
                    some (_calculate_label_bias col ((data.col? t).getD []))
                  else none
      | none => none }

/-- First recommendation message template (detector.py lines 161-164). -/
def recRebalance (attr : String) : String :=
  ("High representation disparity detected in " ++ quoteChar) ++
    (attr ++ (quoteChar ++ ". Consider data collection strategies to improve balance."))

/-- Second recommendation message template (detector.py lines 170-173). -/
def recLabelReview (attr : String) : String :=
  ("Label bias detected in " ++ quoteChar) ++
    (attr ++ (quoteChar ++ ". Review labeling process and consider fairness constraints."))

/-- Default recommendation message (detector.py line 176). -/
def recDefault : String := "No significant bias detected. Continue monitoring."

/-- Embedding of the Python comparison `x > c` where `x` may be the float
`inf` (modelled by `none`): `inf` compares greater than every threshold. -/
def pyGtThreshold (x : Option ℚ) (c : ℚ) : Bool :=
  match x with
  | none => true
  | some q => decide (c < q)

/-- Condition of the first recommendation rule (detector.py line 160):
`rep_bias.get(-disparity_ratio-, 1) > 2.0`.  The key is always present in a
report produced by `_analyze_attribute`, so the default 1 is unreachable. -/
def repRuleFires (m : AttrBias) : Bool :=
  pyGtThreshold m.representation_bias.disparity_ratio 2

/-- Condition of the second recommendation rule (detector.py lines
166-169): a `label_bias` dict with a `disparity` entry whose
`disparity_ratio` exceeds 1.5. -/
def labelRuleFires (m : AttrBias) : Bool :=
  match m.label_bias with
  | some lb =>
    match lb.disparity with
    | some dsp => pyGtThreshold dsp.disparity_ratio (3/2)
    | none => false
  | none => false

/-- Messages appended for one attribute by one pass of the loop body of
`_generate_recommendations`, in source order: the rebalancing message, then
the labeling-review message. -/
def matchedRecs (p : String × AttrBias) : List String :=
  (if repRuleFires p.2 then [recRebalance p.1] else []) ++
    (if labelRuleFires p.2 then [recLabelReview p.1] else [])

/-- Embedding of `BiasDetector._generate_recommendations` (detector.py
lines 154-178): fold the rules over the attributes in order, then fall back
to the single default message when nothing matched. -/
def _generate_recommendations (bias_metrics : List (String × AttrBias)) : List String :=
  let recommendations := bias_metrics.foldl (fun acc p => acc ++ matchedRecs p) []
  if recommendations = [] then [recDefault] else recommendations

/-- Report record returned by `BiasDetector.analyze` (detector.py lines
59-64).  `bias_metrics` models the insertion-ordered dict keyed by
attribute name. -/
structure Report where
  dataset_size : ℕ
  protected_attributes : List String
  bias_metrics : List (String × AttrBias)
  recommendations : List String
deriving DecidableEq

/-- State of a `BiasDetector` instance: the `bias_reports` history list
initialised empty by `__init__` (detector.py lines 24-26). -/
structure BiasDetector where
  bias_reports : List Report
deriving DecidableEq

/-- Attribute loop of `analyze` (detector.py lines 66-71): each requested
attribute is checked for membership in the columns, in request order, and
analysed. -/
def analyzeAttrs (data : DataFrame) (target_column : Option String) :
    List String → Except Err (List (String × AttrBias))
  | [] => .ok []
  | attr :: rest =>
    if data.hasCol attr then
      match analyzeAttrs data target_column rest with
      | .error e => .error e
      | .ok tail => .ok ((attr, _analyze_attribute data attr target_column) :: tail)
    else .error (.valueErrorAttrNotFound attr)

/-- Embedding of `BiasDetector.analyze` (detector.py lines 28-77) as a
state transformer: the returned detector carries the updated
`bias_reports`.  A raised exception leaves the history untouched, because
both raise sites precede the `self.bias_reports.append(report)` call. -/
def BiasDetector.analyze (d : BiasDetector) (data : DataFrame)
    (protected_attributes : List String) (target_column : Option String) :
    BiasDetector × Except Err Report :=
  if protected_attributes = [] then (d, .error .valueErrorEmptyAttrs)
  else
    match analyzeAttrs data target_column protected_attributes with
    | .error e => (d, .error e)
    | .ok bias_metrics =>
      let report : Report :=
        { dataset_size := data.nrows,
          protected_attributes := protected_attributes,
          bias_metrics := bias_metrics,
          recommendations := _generate_recommendations bias_metrics }
      ({ bias_reports := d.bias_reports ++ [report] }, .ok report)

/-- Boundary result record for the C3 witness: group 0 has positive rate
1/20, group 1 has positive rate 0, so the violation is exactly 1/20 and the
verdict is unfair. -/
def dpBoundary : DPResult ℕ :=
  { positive_rates := [(0, 1/20), (1, 0)],
    parity_ratio := none,
    violation := 1/20,
    is_fair := false }

/-- Concrete demographic parity result for the C7 witness: two groups with
rates 1 and 0. -/
def dpW : DPResult ℕ :=
  { positive_rates := [(5, 1), (7, 0)],
    parity_ratio := none,
    violation := 1,
    is_fair := false }

/-- Concrete equal opportunity result for the C7 witness: a single group
with TPR 1, hence violation 0. -/
def eoW : EqOppResult ℕ :=
  { tprs := [(0, 1)], violation := 0, is_fair := true }

/-- Attribute analysis with a representation disparity ratio above 2 (a
column with groups sized 3 and 1) and no label bias, used by the C6
witness. -/
def attrBiasW : AttrBias :=
  { attribute_name := "g",
    group_distribution := [(0, 3/4), (1, 1/4)],
    group_counts := [(0, 3), (1, 1)],
    representation_bias :=
      { max_proportion := some (3/4), min_proportion := some (1/4),
        disparity_ratio := some 3, is_balanced := false },
    label_bias := none }

/-- Empty detector used by the C5 and C10 witnesses. -/
def bdW : BiasDetector := { bias_reports := [] }

/-- Three-row frame with a single column named g, used by the C5 and C10
witnesses. -/
def dfW : DataFrame := { nrows := 3, cols := [("g", [0, 1, 0])] }

lemma foldl_min_le_init (x : ℚ) (xs : List ℚ) : xs.foldl min x ≤ x := by
  induction xs generalizing x with
  | nil => simp
  | cons y ys ih => exact le_trans (ih (min x y)) (min_le_left x y)

lemma init_le_foldl_max (x : ℚ) (xs : List ℚ) : x ≤ xs.foldl max x := by
  induction xs generalizing x with
  | nil => simp
  | cons y ys ih => exact le_trans (le_max_left x y) (ih (max x y))

lemma foldl_max_const (c : ℚ) (xs : List ℚ) (h : ∀ y ∈ xs, y = c) : xs.foldl max c = c := by
  induction xs with
  | nil => rfl
  | cons y ys ih =>
    have hy : y = c := h y (by simp)
    have : ys.foldl max (max c y) = ys.foldl max c := by rw [hy, max_self]
    rw [List.foldl_cons, this]
    exact ih (fun z hz => h z (by simp [hz]))

lemma foldl_min_const (c : ℚ) (xs : List ℚ) (h : ∀ y ∈ xs, y = c) : xs.foldl min c = c := by
  induction xs with
  | nil => rfl
  | cons y ys ih =>
    have hy : y = c := h y (by simp)
    have : ys.foldl min (min c y) = ys.foldl min c := by rw [hy, min_self]
    rw [List.foldl_cons, this]
    exact ih (fun z hz => h z (by simp [hz]))

lemma maskSelect_ok {β : Type} (xs : List β) (mask : List Bool) (h : xs.length = mask.length) :
    maskSelect xs mask =
      .ok ((xs.zip mask).filterMap (fun p => if p.2 then some p.1 else none)) := by
  simp [maskSelect, h]

lemma uniqueSorted_ne_nil {α : Type} [LinearOrder α] {xs : List α} (h : xs ≠ []) :
    uniqueSorted xs ≠ [] := by
  intro hc
  apply h
  have hlen : (uniqueSorted xs).length = xs.dedup.length :=
    List.length_insertionSort _ xs.dedup
  rw [hc] at hlen
  have : xs.dedup = [] := List.eq_nil_of_length_eq_zero hlen.symm
  exact (List.dedup_eq_nil xs).mp this

lemma groupRates_ok {α : Type} [DecidableEq α] (y_pred : List ℚ) (attr : List α)
    (h : y_pred.length = attr.length) (gs : List α) :
    ∃ rs, groupRates y_pred attr gs = .ok rs ∧ rs.map (·.1) = gs := by
  induction gs with
  | nil => exact ⟨[], rfl, rfl⟩
  | cons g gs ih =>
    obtain ⟨rs, hrs, hmap⟩ := ih
    have hmask := maskSelect_ok y_pred (attr.map (fun a => decide (a = g))) (by simp [h])
    refine ⟨(g, listMean ((y_pred.zip (attr.map (fun a => decide (a = g)))).filterMap
      (fun p => if p.2 then some p.1 else none))) :: rs, ?_, by simp [hmap]⟩
    simp [groupRates, hmask, hrs]

lemma demographic_parity_ok_shape {α : Type} [LinearOrder α] (y_pred : List ℚ) (attr : List α)
    (h1 : attr ≠ []) (h2 : y_pred.length = attr.length) :
    ∃ r, demographic_parity y_pred attr = .ok r ∧
      r.is_fair = decide (r.violation < 1/20) := by
  obtain ⟨rs, hrs, hmap⟩ := groupRates_ok y_pred attr h2 (uniqueSorted attr)
  have hne : rs.map (·.2) ≠ [] := by
    intro hc
    apply uniqueSorted_ne_nil h1
    rw [← hmap]
    simp [List.map_eq_nil_iff.mp hc]
  obtain ⟨x, xs, hx⟩ := List.exists_cons_of_ne_nil hne
  refine ⟨{ positive_rates := rs,
            parity_ratio :=
              if 0 < xs.foldl min x then some (xs.foldl max x / xs.foldl min x) else none,
            violation := xs.foldl max x - xs.foldl min x,
            is_fair := decide (xs.foldl max x - xs.foldl min x < 1/20) }, ?_, rfl⟩
  simp [demographic_parity, hrs, hx, maxQ, minQ]

lemma demographic_parity_inv {α : Type} [LinearOrder α] {y_pred : List ℚ} {attr : List α}
    {r : DPResult α} (h : demographic_parity y_pred attr = .ok r) :
    ∃ x xs, r.positive_rates.map (·.2) = x :: xs ∧
      r.violation = xs.foldl max x - xs.foldl min x := by
  unfold demographic_parity at h
  cases hg : groupRates y_pred attr (uniqueSorted attr) with
  | error e => simp [hg] at h
  | ok rates =>
    rw [hg] at h
    cases hm : rates.map (·.2) with
    | nil => simp [hm, maxQ] at h
    | cons x xs =>
      simp only [hm, maxQ, minQ] at h
      injection h with h
      subst h
      exact ⟨x, xs, by simpa using hm, rfl⟩

lemma equal_opportunity_inv {α : Type} [LinearOrder α] {y_true y_pred : List Bool}
    {attr : List α} {r : EqOppResult α}
    (h : equal_opportunity y_true y_pred attr = .ok r) :
    ∃ x xs, r.tprs.map (·.2) = x :: xs ∧
      r.violation = xs.foldl max x - xs.foldl min x := by
  unfold equal_opportunity at h
  cases hg : groupTprs y_true y_pred attr (uniqueSorted attr) with
  | error e => simp [hg] at h
  | ok tprs =>
    rw [hg] at h
    cases hm : tprs.map (·.2) with
    | nil => simp [hm, maxQ] at h
    | cons x xs =>
      simp only [hm, maxQ, minQ] at h
      injection h with h
      subst h
      exact ⟨x, xs, by simpa using hm, rfl⟩

lemma violation_of_rates {β : Type} (x : ℚ) (xs : List ℚ) (pr : List (β × ℚ)) (v : ℚ)
    (hm : pr.map (·.2) = x :: xs) (hv : v = xs.foldl max x - xs.foldl min x) :
    0 ≤ v ∧ ∀ c, (∀ p ∈ pr, p.2 = c) → v = 0 := by
  constructor
  · rw [hv]
    have h1 := foldl_min_le_init x xs
    have h2 := init_le_foldl_max x xs
    linarith
  · intro c hc
    have hall : ∀ z ∈ x :: xs, z = c := by
      rw [← hm]
      intro z hz
      obtain ⟨p, hp, rfl⟩ := List.mem_map.mp hz
      exact hc p hp
    have hx : x = c := hall x (by simp)
    rw [hv, hx, foldl_max_const c xs (fun z hz => hall z (by simp [hz])),
        foldl_min_const c xs (fun z hz => hall z (by simp [hz]))]
    ring

/-- C3: the demographic parity verdict is `violation < 0.05` with a strict
inequality, so a violation of exactly 0.05 is judged unfair.  Stated for
every nonempty protected-attribute vector aligned with the predictions; the
returned record satisfies the verdict characterisation. -/
theorem C3_is_fair_strict_boundary {α : Type} [LinearOrder α] (y_pred : List ℚ)
    (attr : List α) (h1 : attr ≠ []) (h2 : y_pred.length = attr.length) :
    ∃ r, demographic_parity y_pred attr = .ok r ∧
      (r.is_fair = true ↔ r.violation < 1/20) ∧
      (r.violation = 1/20 → r.is_fair = false) := by
  obtain ⟨r, hr, hf⟩ := demographic_parity_ok_shape y_pred attr h1 h2
  refine ⟨r, hr, ?_, ?_⟩
  · rw [hf]
    exact decide_eq_true_iff
  · intro hv
    rw [hf, hv]
    simp


theorem C3_witness :
    (List.replicate 20 (0:ℕ) ++ [1]) ≠ [] ∧
    (1 :: (List.replicate 19 (0:ℚ) ++ [0])).length = (List.replicate 20 (0:ℕ) ++ [1]).length ∧
    demographic_parity (1 :: (List.replicate 19 (0:ℚ) ++ [0]))
        (List.replicate 20 (0:ℕ) ++ [1]) = .ok dpBoundary ∧
    (∃ r, demographic_parity (1 :: (List.replicate 19 (0:ℚ) ++ [0]))
        (List.replicate 20 (0:ℕ) ++ [1]) = .ok r ∧
      (r.is_fair = true ↔ r.violation < 1/20) ∧
      (r.violation = 1/20 → r.is_fair = false)) := by
  refine ⟨by decide, by simp, ?_, C3_is_fair_strict_boundary _ _ (by decide) (by simp)⟩
  simp [demographic_parity, groupRates, uniqueSorted, maskSelect, listMean, maxQ, minQ,
    dpBoundary, List.replicate, List.dedup, List.insertionSort, List.orderedInsert]
  try norm_num

/-- C7: in the demographic parity and equal opportunity calculators, every
produced violation score `max(rates) - min(rates)` is nonnegative, and it is
zero whenever all per-group rates coincide (in particular for a single
group). -/
theorem C7_violation_nonneg {α : Type} [LinearOrder α]
    (y_predq : List ℚ) (attrq : List α) (rdp : DPResult α)
    (y_true y_pred : List Bool) (attr : List α) (reo : EqOppResult α)
    (h1 : demographic_parity y_predq attrq = .ok rdp)
    (h2 : equal_opportunity y_true y_pred attr = .ok reo) :
    (0 ≤ rdp.violation ∧ ∀ c, (∀ p ∈ rdp.positive_rates, p.2 = c) → rdp.violation = 0) ∧
    (0 ≤ reo.violation ∧ ∀ c, (∀ p ∈ reo.tprs, p.2 = c) → reo.violation = 0) := by
  obtain ⟨x, xs, hm, hv⟩ := demographic_parity_inv h1
  obtain ⟨y, ys, hm2, hv2⟩ := equal_opportunity_inv h2
  exact ⟨violation_of_rates x xs _ _ hm hv, violation_of_rates y ys _ _ hm2 hv2⟩


theorem C7_witness :
    demographic_parity [(1:ℚ), 0] [(5:ℕ), 7] = .ok dpW ∧
    equal_opportunity [true, false] [true, false] [(0:ℕ), 0] = .ok eoW ∧
    ((0 ≤ dpW.violation ∧ ∀ c, (∀ p ∈ dpW.positive_rates, p.2 = c) → dpW.violation = 0) ∧
     (0 ≤ eoW.violation ∧ ∀ c, (∀ p ∈ eoW.tprs, p.2 = c) → eoW.violation = 0)) := by
  have hdp : demographic_parity [(1:ℚ), 0] [(5:ℕ), 7] = .ok dpW := by
    simp [demographic_parity, groupRates, uniqueSorted, maskSelect, listMean, maxQ, minQ,
      dpW, List.dedup, List.insertionSort, List.orderedInsert]
    try norm_num
  have heo : equal_opportunity [true, false] [true, false] [(0:ℕ), 0] = .ok eoW := by
    simp [equal_opportunity, groupTprs, uniqueSorted, maskSelect, confusionRavel,
      maxQ, minQ, eoW, List.dedup, List.insertionSort, List.orderedInsert, List.countP,
      List.countP.go]
    try norm_num
  exact ⟨hdp, heo, C7_violation_nonneg _ _ _ _ _ _ _ hdp heo⟩

set_option maxRecDepth 40000 in
set_option maxHeartbeats 2000000 in
/-- C8: the benchmark scenario of the specification, with group values
encoded as naturals (group A of the claim is 0, group B is 1): predictions
are sixty 1s followed by forty 0s, the attribute is fifty 0s followed by
fifty 1s, and demographic parity reports rate 1 for group 0, rate 1/5 for
group 1, violation 4/5, parity ratio 5, and an unfair verdict. -/
theorem C8_demographic_parity_scenario :
    demographic_parity (List.replicate 60 (1:ℚ) ++ List.replicate 40 0)
        (List.replicate 50 (0:ℕ) ++ List.replicate 50 1) =
      .ok { positive_rates := [(0, 1), (1, 1/5)],
            parity_ratio := some 5,
            violation := 4/5,
            is_fair := false } := by
  simp [demographic_parity, groupRates, uniqueSorted, maskSelect, listMean, maxQ, minQ,
    List.replicate, List.dedup, List.insertionSort, List.orderedInsert]
  try norm_num

/-- C1 evaluation: on true labels `[1,0,0]`, predictions `[1,0,0]` and
protected attribute `[0,0,1]`, group 1 consists of one sample whose true
label and prediction are both 0, so it has no positive true labels
(TP+FN = 0); `sklearn.confusion_matrix` then returns a 1x1 matrix and the
four-way unpacking raises `ValueError` in both `equal_opportunity` and
`equalized_odds`, instead of reporting TPR 0. -/
theorem C1_confusion_crash :
    equal_opportunity [true, false, false] [true, false, false] [(0:ℕ), 0, 1] =
        .error .valueErrorUnpack ∧
    equalized_odds [true, false, false] [true, false, false] [(0:ℕ), 0, 1] =
        .error .valueErrorUnpack := by
  exact ⟨rfl, rfl⟩

/-- C2 evaluation: attribute column `[0,1]` with binary target `[1,0]`.
Group 0 has positive rate 1, group 1 has positive rate 0.  The claim
requires the zero rate to participate, which would make the ratio the
float infinity; the code instead drops the zero rate (Python `or` treats
the float 0.0 as falsy) and reports a disparity ratio of 1. -/
theorem C2_label_disparity_drops_zero :
    (_calculate_label_bias [0, 1] [1, 0]).disparity =
      some { max_rate := 1, min_rate := 1, disparity_ratio := some 1 } := by
  simp [_calculate_label_bias, listMean, pyOrRate, maxO, minO, List.dedup]
  try norm_num

/-- C4 as amended: no `InvalidInput` validation exists at the calculator
boundary.  On an empty protected-attribute vector each of the four
calculators reaches `max()` of an empty sequence and raises that
`ValueError`; on mismatched vector lengths the numpy boolean mask raises
`IndexError`, which is not a `ValueError`, from inside the per-group
loop. -/
theorem C4_amended_errors {α : Type} [LinearOrder α]
    (y_true y_pred : List Bool) (y_predq y_proba y_trueq : List ℚ) (attr : List α) :
    (attr = [] →
      demographic_parity y_predq attr = .error .valueErrorEmptyMax ∧
      equalized_odds y_true y_pred attr = .error .valueErrorEmptyMax ∧
      equal_opportunity y_true y_pred attr = .error .valueErrorEmptyMax ∧
      calibration y_trueq y_proba attr = .error .valueErrorEmptyMax) ∧
    (attr ≠ [] → y_predq.length ≠ attr.length →
      demographic_parity y_predq attr = .error .indexErrorBoolMask) ∧
    (attr ≠ [] → (y_true.length ≠ attr.length ∨ y_pred.length ≠ attr.length) →
      equalized_odds y_true y_pred attr = .error .indexErrorBoolMask ∧
      equal_opportunity y_true y_pred attr = .error .indexErrorBoolMask) ∧
    (attr ≠ [] → (y_trueq.length ≠ attr.length ∨ y_proba.length ≠ attr.length) →
      calibration y_trueq y_proba attr = .error .indexErrorBoolMask) := by
  refine ⟨?_, ?_, ?_, ?_⟩
  · rintro rfl
    refine ⟨?_, ?_, ?_, ?_⟩ <;>
      simp [demographic_parity, equalized_odds, equal_opportunity, calibration,
        uniqueSorted, groupRates, groupOddsList, groupTprs, groupCalib, maxQ]
  · intro h1 h2
    obtain ⟨g, gs, hgs⟩ := List.exists_cons_of_ne_nil (uniqueSorted_ne_nil h1)
    simp [demographic_parity, hgs, groupRates, maskSelect, h2]
  · intro h1 h2
    obtain ⟨g, gs, hgs⟩ := List.exists_cons_of_ne_nil (uniqueSorted_ne_nil h1)
    by_cases ht : y_true.length = attr.length
    · have hp : y_pred.length ≠ attr.length := by
        rcases h2 with h2 | h2
        · exact absurd ht h2
        · exact h2
      constructor <;>
        simp [equalized_odds, equal_opportunity, hgs, groupOddsList, groupTprs,
          maskSelect, ht, hp]
    · constructor <;>
        simp [equalized_odds, equal_opportunity, hgs, groupOddsList, groupTprs,
          maskSelect, ht]
  · intro h1 h2
    obtain ⟨g, gs, hgs⟩ := List.exists_cons_of_ne_nil (uniqueSorted_ne_nil h1)
    by_cases ht : y_trueq.length = attr.length
    · have hp : y_proba.length ≠ attr.length := by
        rcases h2 with h2 | h2
        · exact absurd ht h2
        · exact h2
      simp [calibration, hgs, groupCalib, maskSelect, ht, hp]
    · simp [calibration, hgs, groupCalib, maskSelect, ht]

theorem C4_amended_witness :
    demographic_parity ([] : List ℚ) ([] : List ℕ) = .error .valueErrorEmptyMax ∧
    demographic_parity [(1:ℚ)] [(0:ℕ), 1] = .error .indexErrorBoolMask ∧
    equalized_odds [true] [true] [(0:ℕ), 1] = .error .indexErrorBoolMask := by
  refine ⟨((C4_amended_errors [] [] [] [] [] ([] : List ℕ)).1 rfl).1, ?_, ?_⟩
  · exact (C4_amended_errors [] [] [(1:ℚ)] [] [] [(0:ℕ), 1]).2.1 (by decide) (by decide)
  · exact ((C4_amended_errors [true] [true] [] [] [] [(0:ℕ), 1]).2.2.1 (by decide)
      (Or.inl (by decide))).1

/-- C4 counterexample: with predictions of length 1 against an attribute
vector of length 2, `demographic_parity` raises the numpy boolean-mask
`IndexError`, which is not a Python `ValueError`.  The claimed
`InvalidInput` failure corresponds to `ValueError`, so the claim fails on
this input. -/
theorem C4_counterexample :
    demographic_parity [(1:ℚ)] [(0:ℕ), 1] = .error .indexErrorBoolMask ∧
    Err.isValueError .indexErrorBoolMask = false := by
  exact ⟨rfl, rfl⟩

lemma dedup_map_of_injective {f : ℚ → ℚ} (hf : Function.Injective f) (xs : List ℚ) :
    (xs.map f).dedup = xs.dedup.map f := by
  induction xs with
  | nil => simp
  | cons a l ih =>
    by_cases h : a ∈ l
    · have h2 : f a ∈ l.map f := List.mem_map_of_mem f h
      rw [List.map_cons, List.dedup_cons_of_mem h2, ih, List.dedup_cons_of_mem h]
    · have h2 : f a ∉ l.map f := by
        intro hc
        obtain ⟨b, hb, hfb⟩ := List.mem_map.mp hc
        exact h (hf hfb ▸ hb)
      rw [List.map_cons, List.dedup_cons_of_not_mem h2, ih, List.dedup_cons_of_not_mem h,
        List.map_cons]

lemma valueCounts_map {f : ℚ → ℚ} (hf : Function.Injective f) (xs : List ℚ) :
    valueCounts (xs.map f) = (valueCounts xs).map (fun p => (f p.1, p.2)) := by
  unfold valueCounts
  rw [dedup_map_of_injective hf, List.map_map, List.map_map]
  apply List.map_congr_left
  intro g hg
  simp [List.count_map_of_injective _ f hf]

/-- C9: the representation analysis is invariant under any injective
renaming of the group values of the protected-attribute column: both the
disparity ratio and the balance verdict are unchanged. -/
theorem C9_representation_rename_invariant (xs : List ℚ) (f : ℚ → ℚ)
    (hf : Function.Injective f) :
    (representationBiasOfColumn (xs.map f)).disparity_ratio =
      (representationBiasOfColumn xs).disparity_ratio ∧
    (representationBiasOfColumn (xs.map f)).is_balanced =
      (representationBiasOfColumn xs).is_balanced := by
  have key : representationBiasOfColumn (xs.map f) = representationBiasOfColumn xs := by
    simp only [representationBiasOfColumn, _calculate_representation_bias, List.length_map]
    rw [valueCounts_map hf, List.map_map]
    rfl
  exact ⟨by rw [key], by rw [key]⟩

theorem C9_witness :
    Function.Injective (fun q : ℚ => q + 1) ∧
    ((representationBiasOfColumn (List.map (fun q : ℚ => q + 1) [0, 0, 1])).disparity_ratio =
       (representationBiasOfColumn [0, 0, 1]).disparity_ratio ∧
     (representationBiasOfColumn (List.map (fun q : ℚ => q + 1) [0, 0, 1])).is_balanced =
       (representationBiasOfColumn [0, 0, 1]).is_balanced) ∧
    (representationBiasOfColumn [(0:ℚ), 0, 1]).disparity_ratio = some 2 ∧
    (representationBiasOfColumn [(0:ℚ), 0, 1]).is_balanced = false := by
  have hinj : Function.Injective (fun q : ℚ => q + 1) := fun a b h => by simpa using h
  refine ⟨hinj, C9_representation_rename_invariant [0, 0, 1] _ hinj, ?_, ?_⟩ <;>
    norm_num [representationBiasOfColumn, _calculate_representation_bias, valueCounts,
      maxO, minO, List.dedup]

lemma string_eq_of_data {a b : String} (h : a.data = b.data) : a = b := by
  cases a
  cases b
  simp_all

lemma recRebalance_injective : Function.Injective recRebalance := by
  intro a b h
  apply string_eq_of_data
  have hd := congrArg String.data h
  simp only [recRebalance, String.data_append, List.append_assoc] at hd
  exact List.append_cancel_right (List.append_cancel_left (List.append_cancel_left hd))

lemma recLabelReview_injective : Function.Injective recLabelReview := by
  intro a b h
  apply string_eq_of_data
  have hd := congrArg String.data h
  simp only [recLabelReview, String.data_append, List.append_assoc] at hd
  exact List.append_cancel_right (List.append_cancel_left (List.append_cancel_left hd))

lemma head_of_rebalance (a : String) : (recRebalance a).data.head? = some (Char.ofNat 72) := by
  have h : ("High representation disparity detected in " : String).data
      = Char.ofNat 72 :: ("igh representation disparity detected in " : String).data := rfl
  simp [recRebalance, String.data_append, h]

lemma head_of_labelReview (a : String) :
    (recLabelReview a).data.head? = some (Char.ofNat 76) := by
  have h : ("Label bias detected in " : String).data
      = Char.ofNat 76 :: ("abel bias detected in " : String).data := rfl
  simp [recLabelReview, String.data_append, h]

lemma head_of_default : recDefault.data.head? = some (Char.ofNat 78) := rfl

lemma rebalance_ne_labelRev (a b : String) : recRebalance a ≠ recLabelReview b := by
  intro h
  have hh := congrArg (fun s => s.data.head?) h
  simp only [head_of_rebalance, head_of_labelReview] at hh
  exact absurd hh (by decide)

lemma rebalance_ne_default (a : String) : recRebalance a ≠ recDefault := by
  intro h
  have hh := congrArg (fun s => s.data.head?) h
  simp only [head_of_rebalance, head_of_default] at hh
  exact absurd hh (by decide)

lemma labelRev_ne_default (a : String) : recLabelReview a ≠ recDefault := by
  intro h
  have hh := congrArg (fun s => s.data.head?) h
  simp only [head_of_labelReview, head_of_default] at hh
  exact absurd hh (by decide)

lemma foldl_matched (ms : List (String × AttrBias)) (acc : List String) :
    ms.foldl (fun acc p => acc ++ matchedRecs p) acc = acc ++ ms.flatMap matchedRecs := by
  induction ms generalizing acc with
  | nil => simp
  | cons m ms ih => simp [ih]

lemma gen_recs_eq (ms : List (String × AttrBias)) :
    _generate_recommendations ms =
      if ms.flatMap matchedRecs = [] then [recDefault] else ms.flatMap matchedRecs := by
  unfold _generate_recommendations
  rw [foldl_matched]
  simp

lemma default_not_mem_matched (ms : List (String × AttrBias)) :
    recDefault ∉ ms.flatMap matchedRecs := by
  intro h
  rw [List.mem_flatMap] at h
  obtain ⟨p, _, hmem⟩ := h
  unfold matchedRecs at hmem
  rw [List.mem_append] at hmem
  rcases hmem with hmem | hmem
  · by_cases hf : repRuleFires p.2 <;> simp [hf] at hmem
    exact rebalance_ne_default p.1 hmem.symm
  · by_cases hf : labelRuleFires p.2 <;> simp [hf] at hmem
    exact labelRev_ne_default p.1 hmem.symm

lemma nodup_key_unique {β : Type} {ms : List (String × β)} (h : (ms.map Prod.fst).Nodup)
    {a : String} {m m' : β} (h1 : (a, m) ∈ ms) (h2 : (a, m') ∈ ms) : m = m' := by
  induction ms with
  | nil => cases h1
  | cons q ms ih =>
    rw [List.map_cons, List.nodup_cons] at h
    rcases List.mem_cons.mp h1 with e1 | e1 <;> rcases List.mem_cons.mp h2 with e2 | e2
    · rw [← e1] at e2
      exact (Prod.mk.injEq _ _ _ _).mp e2.symm |>.2
    · exfalso
      apply h.1
      rw [← e1]
      simpa using List.mem_map_of_mem Prod.fst e2
    · exfalso
      apply h.1
      rw [← e2]
      simpa using List.mem_map_of_mem Prod.fst e1
    · exact ih h.2 e1 e2

lemma rebalance_mem_matched {ms : List (String × AttrBias)}
    (hnodup : (ms.map Prod.fst).Nodup) {a : String} {m : AttrBias} (hm : (a, m) ∈ ms) :
    recRebalance a ∈ ms.flatMap matchedRecs ↔ repRuleFires m = true := by
  rw [List.mem_flatMap]
  constructor
  · rintro ⟨p, hp, hmem⟩
    unfold matchedRecs at hmem
    rw [List.mem_append] at hmem
    rcases hmem with hmem | hmem
    · by_cases hf : repRuleFires p.2 <;> simp [hf] at hmem
      have ha : a = p.1 := recRebalance_injective hmem
      have hmm : m = p.2 := by
        apply nodup_key_unique hnodup hm
        rw [ha]
        exact hp
      rw [hmm]
      exact hf
    · by_cases hf : labelRuleFires p.2 <;> simp [hf] at hmem
      exact absurd hmem (rebalance_ne_labelRev a p.1)
  · intro hf
    exact ⟨(a, m), hm, by simp [matchedRecs, hf]⟩

lemma labelRev_mem_matched {ms : List (String × AttrBias)}
    (hnodup : (ms.map Prod.fst).Nodup) {a : String} {m : AttrBias} (hm : (a, m) ∈ ms) :
    recLabelReview a ∈ ms.flatMap matchedRecs ↔ labelRuleFires m = true := by
  rw [List.mem_flatMap]
  constructor
  · rintro ⟨p, hp, hmem⟩
    unfold matchedRecs at hmem
    rw [List.mem_append] at hmem
    rcases hmem with hmem | hmem
    · by_cases hf : repRuleFires p.2 <;> simp [hf] at hmem
      exact absurd hmem.symm (rebalance_ne_labelRev p.1 a)
    · by_cases hf : labelRuleFires p.2 <;> simp [hf] at hmem
      have ha : a = p.1 := recLabelReview_injective hmem
      have hmm : m = p.2 := by
        apply nodup_key_unique hnodup hm
        rw [ha]
        exact hp
      rw [hmm]
      exact hf
  · intro hf
    exact ⟨(a, m), hm, by simp [matchedRecs, hf]⟩

/-- C6: over any aggregated bias-metrics mapping with distinct attribute
keys, the recommendation list is the rule matches accumulated in the fixed
evaluation order (representation rule then label rule, attribute by
attribute), the rebalancing message for an attribute appears iff its
representation disparity ratio exceeds 2, the labeling-review message
appears iff its label disparity ratio exceeds 1.5, and the list is exactly
the single default message iff no rule matched. -/
theorem C6_recommendation_rules (ms : List (String × AttrBias))
    (hnodup : (ms.map Prod.fst).Nodup) :
    (_generate_recommendations ms =
      if ms.flatMap matchedRecs = [] then [recDefault] else ms.flatMap matchedRecs) ∧
    (∀ a m, (a, m) ∈ ms →
      (recRebalance a ∈ _generate_recommendations ms ↔ repRuleFires m = true)) ∧
    (∀ a m, (a, m) ∈ ms →
      (recLabelReview a ∈ _generate_recommendations ms ↔ labelRuleFires m = true)) ∧
    (_generate_recommendations ms = [recDefault] ↔ ms.flatMap matchedRecs = []) := by
  refine ⟨gen_recs_eq ms, ?_, ?_, ?_⟩
  · intro a m hm
    rw [gen_recs_eq ms]
    by_cases hempty : ms.flatMap matchedRecs = []
    · rw [if_pos hempty]
      constructor
      · intro hmem
        rw [List.mem_singleton] at hmem
        exact absurd hmem (rebalance_ne_default a)
      · intro hf
        exfalso
        have : recRebalance a ∈ ms.flatMap matchedRecs :=
          (rebalance_mem_matched hnodup hm).mpr hf
        rw [hempty] at this
        cases this
    · rw [if_neg hempty]
      exact rebalance_mem_matched hnodup hm
  · intro a m hm
    rw [gen_recs_eq ms]
    by_cases hempty : ms.flatMap matchedRecs = []
    · rw [if_pos hempty]
      constructor
      · intro hmem
        rw [List.mem_singleton] at hmem
        exact absurd hmem (labelRev_ne_default a)
      · intro hf
        exfalso
        have : recLabelReview a ∈ ms.flatMap matchedRecs :=
          (labelRev_mem_matched hnodup hm).mpr hf
        rw [hempty] at this
        cases this
    · rw [if_neg hempty]
      exact labelRev_mem_matched hnodup hm
  · rw [gen_recs_eq ms]
    by_cases hempty : ms.flatMap matchedRecs = []
    · simp [hempty]
    · rw [if_neg hempty]
      constructor
      · intro hc
        exfalso
        apply default_not_mem_matched ms
        rw [hc]
        exact List.mem_singleton_self _
      · intro hc
        exact absurd hc hempty


theorem C6_witness :
    ((([("g", attrBiasW)] : List (String × AttrBias)).map Prod.fst).Nodup) ∧
    (_generate_recommendations [("g", attrBiasW)] = [recRebalance "g"] ∧
     (recRebalance "g" ∈ _generate_recommendations [("g", attrBiasW)] ↔
        repRuleFires attrBiasW = true) ∧
     repRuleFires attrBiasW = true ∧
     _generate_recommendations [] = [recDefault]) := by
  have hnodup : (([("g", attrBiasW)] : List (String × AttrBias)).map Prod.fst).Nodup := by
    simp
  have hfires : repRuleFires attrBiasW = true := by
    norm_num [repRuleFires, attrBiasW, pyGtThreshold]
  have hlabel : labelRuleFires attrBiasW = false := by
    simp [labelRuleFires, attrBiasW]
  refine ⟨hnodup, ?_, ?_, hfires, ?_⟩
  · rw [(C6_recommendation_rules [("g", attrBiasW)] hnodup).1]
    simp [matchedRecs, hfires, hlabel]
  · exact (C6_recommendation_rules [("g", attrBiasW)] hnodup).2.1 "g" attrBiasW (by simp)
  · rfl

lemma analyzeAttrs_ok (data : DataFrame) (t : Option String) (attrs : List String)
    (h : ∀ a ∈ attrs, data.hasCol a = true) :
    analyzeAttrs data t attrs =
      .ok (attrs.map (fun a => (a, _analyze_attribute data a t))) := by
  induction attrs with
  | nil => rfl
  | cons a rest ih =>
    have ha := h a (by simp)
    simp [analyzeAttrs, ha, ih (fun b hb => h b (by simp [hb]))]

lemma analyzeAttrs_missing (data : DataFrame) (t : Option String) (attrs : List String)
    (h : ∃ a ∈ attrs, data.hasCol a = false) :
    ∃ b, b ∈ attrs ∧ data.hasCol b = false ∧
      analyzeAttrs data t attrs = .error (.valueErrorAttrNotFound b) := by
  induction attrs with
  | nil => simp at h
  | cons a rest ih =>
    by_cases ha : data.hasCol a = true
    · have hrest : ∃ b ∈ rest, data.hasCol b = false := by
        obtain ⟨b, hb, hbf⟩ := h
        rcases List.mem_cons.mp hb with e | e
        · rw [← e] at ha
          rw [ha] at hbf
          cases hbf
        · exact ⟨b, e, hbf⟩
      obtain ⟨b, hb, hbf, heq⟩ := ih hrest
      exact ⟨b, by simp [hb], hbf, by simp [analyzeAttrs, ha, heq]⟩
    · rw [Bool.not_eq_true] at ha
      exact ⟨a, by simp, ha, by simp [analyzeAttrs, ha]⟩

lemma analyze_ok (d : BiasDetector) (data : DataFrame) (attrs : List String)
    (t : Option String) (h1 : attrs ≠ []) (h2 : ∀ a ∈ attrs, data.hasCol a = true) :
    ∃ r, d.analyze data attrs t = ({ bias_reports := d.bias_reports ++ [r] }, .ok r) := by
  refine ⟨{ dataset_size := data.nrows,
            protected_attributes := attrs,
            bias_metrics := attrs.map (fun a => (a, _analyze_attribute data a t)),
            recommendations :=
              _generate_recommendations
                (attrs.map (fun a => (a, _analyze_attribute data a t))) }, ?_⟩
  simp [BiasDetector.analyze, h1, analyzeAttrs_ok data t attrs h2]

/-- C5: `BiasDetector.analyze` raises the empty-list `ValueError` (the
specification calls it `InvalidInput`) exactly on an empty
protected-attribute list; with a nonempty list containing a name that is
not a column it raises the attribute-not-found `ValueError` (the
specification calls it `AttributeNotFound`) for such a name; and with a
nonempty list of present names it returns a report and raises neither
error. -/
theorem C5_analyze_error_conditions (d : BiasDetector) (data : DataFrame)
    (attrs : List String) (t : Option String) :
    (attrs = [] → (d.analyze data attrs t).2 = .error .valueErrorEmptyAttrs) ∧
    (attrs ≠ [] → (∃ a ∈ attrs, data.hasCol a = false) →
      ∃ b, b ∈ attrs ∧ data.hasCol b = false ∧
        (d.analyze data attrs t).2 = .error (.valueErrorAttrNotFound b)) ∧
    (attrs ≠ [] → (∀ a ∈ attrs, data.hasCol a = true) →
      ∃ r, (d.analyze data attrs t).2 = .ok r) := by
  refine ⟨?_, ?_, ?_⟩
  · rintro rfl
    rfl
  · intro h1 h2
    obtain ⟨b, hb, hbf, heq⟩ := analyzeAttrs_missing data t attrs h2
    exact ⟨b, hb, hbf, by simp [BiasDetector.analyze, h1, heq]⟩
  · intro h1 h2
    obtain ⟨r, hr⟩ := analyze_ok d data attrs t h1 h2
    exact ⟨r, by rw [hr]⟩


theorem C5_witness :
    ((bdW.analyze dfW [] none).2 = .error .valueErrorEmptyAttrs) ∧
    (["x"] ≠ ([] : List String) ∧ (∃ a ∈ ["x"], dfW.hasCol a = false) ∧
      ∃ b, b ∈ ["x"] ∧ dfW.hasCol b = false ∧
        (bdW.analyze dfW ["x"] none).2 = .error (.valueErrorAttrNotFound b)) ∧
    (["g"] ≠ ([] : List String) ∧ (∀ a ∈ ["g"], dfW.hasCol a = true) ∧
      ∃ r, (bdW.analyze dfW ["g"] none).2 = .ok r) := by
  refine ⟨(C5_analyze_error_conditions bdW dfW [] none).1 rfl, ⟨?_, ?_, ?_⟩, ⟨?_, ?_, ?_⟩⟩
  · simp
  · exact ⟨"x", by simp, by rfl⟩
  · exact (C5_analyze_error_conditions bdW dfW ["x"] none).2.1 (by simp)
      ⟨"x", by simp, by rfl⟩
  · simp
  · intro a ha
    rw [List.mem_singleton] at ha
    subst ha
    rfl
  · refine (C5_analyze_error_conditions bdW dfW ["g"] none).2.2 (by simp) ?_
    intro a ha
    rw [List.mem_singleton] at ha
    subst ha
    rfl

/-- C10: `BiasDetector.analyze` is the only mutator of `bias_reports`: a
successful call appends exactly the returned report to the history, and a
call that raises leaves the history unchanged. -/
theorem C10_bias_reports_frame (d : BiasDetector) (data : DataFrame)
    (attrs : List String) (t : Option String) :
    (∀ s' r, d.analyze data attrs t = (s', .ok r) →
      s'.bias_reports = d.bias_reports ++ [r]) ∧
    (∀ s' e, d.analyze data attrs t = (s', .error e) → s' = d) := by
  unfold BiasDetector.analyze
  by_cases h : attrs = []
  · rw [if_pos h]
    constructor
    · intro s' r hc
      cases hc
    · intro s' e hc
      exact (Prod.mk.injEq _ _ _ _).mp hc |>.1.symm
  · rw [if_neg h]
    cases hm : analyzeAttrs data t attrs with
    | error e =>
      constructor
      · intro s' r hc
        cases hc
      · intro s' e hc
        exact (Prod.mk.injEq _ _ _ _).mp hc |>.1.symm
    | ok bm =>
      constructor
      · intro s' r hc
        obtain ⟨h1, h2⟩ := (Prod.mk.injEq _ _ _ _).mp hc
        obtain rfl := (Except.ok.injEq _ _).mp h2
        rw [← h1]
      · intro s' e hc
        obtain ⟨h1, h2⟩ := (Prod.mk.injEq _ _ _ _).mp hc
        cases h2

theorem C10_witness :
    ∃ s' r, bdW.analyze dfW ["g"] none = (s', .ok r) ∧
      s'.bias_reports = bdW.bias_reports ++ [r] := by
  obtain ⟨r, hr⟩ := analyze_ok bdW dfW ["g"] none (by simp)
    (by intro a ha; rw [List.mem_singleton] at ha; subst ha; rfl)
  exact ⟨_, r, hr, (C10_bias_reports_frame bdW dfW ["g"] none).1 _ r hr⟩
